import Mathlib

/-!
Verification development for the YuE job-orchestration servers.

The definitions below are a shallow embedding of the job-handling logic of
`yueBpw/server.py` (the main server), `server.py` (the minimal variant) and
`yueBpw/vertex/server.py` (the Vertex variant).  External collaborators
(lyrics provider, inference subprocess, filesystem walk, object storage) are
modelled as oracle inputs; the embedded functions mirror the control flow of
the Python source.
-/

set_option maxHeartbeats 1000000

namespace Yue

/-- Job status enum, union of the `Status` enums of the two server variants
(`yueBpw/server.py` lines 12-24 and `vertex/server.py` lines 222-235). -/
inductive Status where
  | queued
  | processing
  | generatingLyrics
  | generatingAudio
  | uploading
  | complete
  | error
deriving DecidableEq, Repr

/-- A status is terminal when it is COMPLETE or ERROR. -/
def Status.isTerminal : Status → Bool
  | .complete => true
  | .error => true
  | _ => false

/-! ### GenreMatcher (`find_closest_genre`, yueBpw/server.py lines 152-187) -/

/-- Python `str.lower()` on ASCII input, written as an explicit character map
so that concrete evaluations reduce in the kernel. -/
def pyLower (s : String) : String := String.mk (s.toList.map Char.toLower)

/-- Mirrors `''.join(c for c in genre if c.isalnum() or c.isspace())`. -/
def cleanGenre (s : String) : String :=
  String.mk (s.toList.filter (fun c => c.isAlphanum || c.isWhitespace))

/-- The fixed alias table `variations` of `find_closest_genre`. -/
def variations : List (String × String) :=
  [("hiphop", "hip-hop"), ("hip hop", "hip-hop"), ("rb", "r&b"), ("randb", "r&b"),
   ("rhythm and blues", "r&b"), ("electronica", "electronic"),
   ("classical music", "classical"), ("pop music", "pop"), ("rock music", "rock")]

/-- Character-list prefix test. -/
def leadsChars : List Char → List Char → Bool
  | [], _ => true
  | _ :: _, [] => false
  | a :: as, b :: bs => a == b && leadsChars as bs

/-- Character-list contiguous-substring test. -/
def isSubChars (a : List Char) : List Char → Bool
  | [] => a.isEmpty
  | b :: bs => leadsChars a (b :: bs) || isSubChars a bs

/-- Python substring containment `a in b`. -/
def isSubstr (a b : String) : Bool := isSubChars a.toList b.toList

/-- The list comprehension building `partial_matches`:
valid genres that contain the candidate or are contained in it. -/
def partialMatches (validGenres : List String) (genre : String) : List String :=
  validGenres.filter (fun v => isSubstr genre v || isSubstr v genre)

/-- Shallow embedding of `find_closest_genre` (yueBpw/server.py lines 152-187).
`validGenres` stands for the module-level `VALID_GENRES` set, kept as a list to
make the set-iteration order of the partial-match step explicit. -/
def find_closest_genre (validGenres : List String) (genre0 : String) : String :=
  let genre := pyLower genre0
  if validGenres.contains genre then genre
  else
    let cleaned := cleanGenre genre
    if validGenres.contains cleaned then cleaned
    else
      let aliasHit :=
        match variations.lookup genre with
        | some target => if validGenres.contains target then some target else none
        | none => none
      match aliasHit with
      | some target => target
      | none =>
        match partialMatches validGenres genre with
        | [] => "pop"
        | m :: _ => m

/-- A small concrete stand-in for the `VALID_GENRES` set loaded from
`top_200_tags.json` (the JSON file is external data, but per the spec it is a
lowercased genre vocabulary containing "pop"). -/
def validGenresEx : List String :=
  ["pop", "rock", "hip-hop", "r&b", "electronic", "classical", "jazz"]

end Yue

namespace Yue

/-- C7: the genre match function is total (it is a Lean function), its result
is always a member of the valid-genre set (given that the set contains the
fallback "pop", as the spec's vocabulary does), and when none of the four
matching steps applies it returns the fixed fallback "pop". -/
theorem find_closest_genre_total_valid (validGenres : List String)
    (hpop : "pop" ∈ validGenres) (g : String) :
    find_closest_genre validGenres g ∈ validGenres ∧
    ((validGenres.contains (pyLower g) = false ∧
      validGenres.contains (cleanGenre (pyLower g)) = false ∧
      (∀ t, variations.lookup (pyLower g) = some t → validGenres.contains t = false) ∧
      partialMatches validGenres (pyLower g) = []) →
      find_closest_genre validGenres g = "pop") := by
  constructor
  · unfold find_closest_genre
    by_cases h1 : validGenres.contains (pyLower g)
    · simp only [h1, if_true]
      simpa using h1
    · by_cases h2 : validGenres.contains (cleanGenre (pyLower g))
      · simp only [h1, h2, if_false, if_true, Bool.false_eq_true, ite_false, ite_true]
        simpa using h2
      · rcases hl : variations.lookup (pyLower g) with _ | t
        · simp only [h1, h2, hl, Bool.false_eq_true, ite_false]
          rcases hp : partialMatches validGenres (pyLower g) with _ | ⟨m, rest⟩
          · simp [hp, hpop]
          · have hm : m ∈ partialMatches validGenres (pyLower g) := by
              rw [hp]; exact List.mem_cons_self m rest
            simp only [hp]
            exact List.mem_of_mem_filter hm
        · by_cases hc : validGenres.contains t
          · simp only [h1, h2, hl, hc, Bool.false_eq_true, ite_false, ite_true]
            simpa using hc
          · simp only [h1, h2, hl, hc, Bool.false_eq_true, ite_false]
            rcases hp : partialMatches validGenres (pyLower g) with _ | ⟨m, rest⟩
            · simp [hp, hpop]
            · have hm : m ∈ partialMatches validGenres (pyLower g) := by
                rw [hp]; exact List.mem_cons_self m rest
              simp only [hp]
              exact List.mem_of_mem_filter hm
  · rintro ⟨h1, h2, h3, h4⟩
    have h1' : (pyLower g) ∉ validGenres := by simpa using h1
    have h2' : cleanGenre (pyLower g) ∉ validGenres := by simpa using h2
    unfold find_closest_genre
    rcases hl : variations.lookup (pyLower g) with _ | t
    · simp [h1', h2', hl, h4]
    · have ht : t ∉ validGenres := by simpa using h3 t hl
      simp [h1', h2', hl, ht, h4]

/-- If a candidate is already in the (lowercase) valid-genre set, the matcher
returns it unchanged via the direct-match step. -/
theorem find_closest_genre_of_mem (validGenres : List String)
    (hlow : ∀ x ∈ validGenres, pyLower x = x) (g : String) (hg : g ∈ validGenres) :
    find_closest_genre validGenres g = g := by
  have hlg : (pyLower g) = g := hlow g hg
  unfold find_closest_genre
  simp [hlg, hg]

/-- Closed witness for C7 at a concrete valid-genre set and candidate. -/
theorem find_closest_genre_total_valid_witness :
    find_closest_genre validGenresEx "Rock" ∈ validGenresEx ∧
    ((validGenresEx.contains (pyLower "Rock") = false ∧
      validGenresEx.contains (cleanGenre (pyLower "Rock")) = false ∧
      (∀ t, variations.lookup (pyLower "Rock") = some t →
        validGenresEx.contains t = false) ∧
      partialMatches validGenresEx (pyLower "Rock") = []) →
      find_closest_genre validGenresEx "Rock" = "pop") :=
  find_closest_genre_total_valid validGenresEx (by decide) "Rock"

/-! ### Batch genre validation (`infer_genres_from_prompt`, yueBpw/server.py
lines 708-732; the same loop appears in `generate_lyrics_by_genres`,
lines 774-795) -/

/-- Shallow embedding of the validation loop over the provider's suggested
genres: a candidate already in the valid set is appended verbatim; otherwise
its closest match is appended unless that match is the fallback "pop"; an
empty result list is replaced by `["pop"]`. -/
def validateGenres (validGenres : List String) (suggested : List String) : List String :=
  let validated := suggested.filterMap (fun genre =>
    if validGenres.contains genre then some genre
    else
      let closest := find_closest_genre validGenres genre
      if closest != "pop" then some closest else none)
  if validated.isEmpty then ["pop"] else validated

/-- C8 counterexample: on the batch `["rock", "pop"]` a non-fallback result
("rock") exists, yet the result "pop" is NOT discarded — the code keeps any
candidate that is literally a member of the valid set, including "pop"
itself, so the claimed unconditional discard of fallback results does not
happen. -/
theorem validateGenres_keeps_pop_counterexample :
    find_closest_genre validGenresEx "rock" = "rock" ∧
    find_closest_genre validGenresEx "rock" ≠ "pop" ∧
    validateGenres validGenresEx ["rock", "pop"] = ["rock", "pop"] :=
  ⟨rfl, by decide, rfl⟩

/-- C8 amended: the batch match applies the single-candidate match to each
element; a result equal to the fallback "pop" is discarded unless its
candidate was itself a member of the valid-genre set (in which case it is
kept even when non-fallback results exist), and the discard happens
regardless of whether any non-fallback result exists; if every result is
discarded the batch returns exactly `["pop"]`. -/
theorem validateGenres_amended (validGenres : List String)
    (hlow : ∀ x ∈ validGenres, pyLower x = x) (suggested : List String) :
    validateGenres validGenres suggested =
      (let kept := suggested.filterMap (fun genre =>
        let m := find_closest_genre validGenres genre
        if validGenres.contains genre || m != "pop" then some m else none)
      if kept.isEmpty then ["pop"] else kept) := by
  have hfun : ∀ genre ∈ suggested,
      (if validGenres.contains genre then some genre
       else
         let closest := find_closest_genre validGenres genre
         if closest != "pop" then some closest else none) =
      (let m := find_closest_genre validGenres genre
       if validGenres.contains genre || m != "pop" then some m else none) := by
    intro genre _
    by_cases hg : validGenres.contains genre
    · have hmem : genre ∈ validGenres := by simpa using hg
      simp [hg, hmem, find_closest_genre_of_mem validGenres hlow genre hmem]
    · have hg' : genre ∉ validGenres := by simpa using hg
      by_cases hm : find_closest_genre validGenres genre = "pop" <;>
        simp [hg, hg', hm]
  unfold validateGenres
  rw [List.filterMap_congr hfun]

/-- Closed witness for the amended C8 at a concrete batch. -/
theorem validateGenres_amended_witness :
    validateGenres validGenresEx ["rock", "totallyinvalidxyz"] =
      (let kept := ["rock", "totallyinvalidxyz"].filterMap (fun genre =>
        let m := find_closest_genre validGenresEx genre
        if validGenresEx.contains genre || m != "pop" then some m else none)
      if kept.isEmpty then ["pop"] else kept) :=
  validateGenres_amended validGenresEx (by decide) ["rock", "totallyinvalidxyz"]

/-! ### Job records and the processing pipeline (yueBpw/server.py) -/

/-- The fields of a `results[request_id]` record in yueBpw/server.py.
Timestamps are modelled as set/unset flags; `filePaths` is `none` when the
`file_paths` key is absent. -/
structure JobRec where
  status : Status
  queuePosition : Nat := 0
  estimatedWait : Nat := 0
  filePaths : Option (List (String × String)) := none
  outputDir : Option String := none
  error : Option String := none
  startedAt : Bool := false
  completedAt : Bool := false
deriving DecidableEq, Repr

/-- The result-file extensions recognized by the output scans
(lines 300 and 670: ".json", ".wav", ".mid", ".mp3"). -/
def resultExts : List String := [".json", ".wav", ".mid", ".mp3"]

/-- Python `name.endswith(suffix)`, written over character lists so that
concrete evaluations reduce in the kernel. -/
def strEndsWith (name suffix : String) : Bool :=
  leadsChars suffix.toList.reverse name.toList.reverse

/-- `filename.endswith((".json", ".wav", ".mid", ".mp3"))`. -/
def hasResultExt (name : String) : Bool := resultExts.any (fun e => strEndsWith name e)

/-- The `os.walk` collection loop (yueBpw/server.py lines 296-304, repeated at
668-675): keep the files whose name has a recognized extension, as
`(filename, relative path)` pairs. -/
def collectResultFiles (walk : List (String × String)) : List (String × String) :=
  walk.filter (fun f => hasResultExt f.1)

/-- Oracle inputs standing for one job's external collaborators in
`process_yue_request`: whether the request already carries lyrics, the lyrics
provider's outcome, the inference subprocess exit code, and the files found by
walking the job's output directory. -/
structure InferOracle where
  lyricsProvided : Bool
  lyricsGen : Option String
  exitCode : Nat
  walkFiles : List (String × String)
deriving DecidableEq, Repr

/-- Shallow embedding of `process_yue_request` (yueBpw/server.py lines
218-325): the final value of the job's record.  The `except` handler turns any
failure (provider error, non-zero exit via `check=True`, or the explicit
"No result files found" raise) into an ERROR record with the error field set. -/
def processYueRequest (o : InferOracle) (job : JobRec) : JobRec :=
  let job := if !o.lyricsProvided then { job with status := Status.generatingLyrics } else job
  if o.lyricsProvided = false ∧ o.lyricsGen = none then
    { job with
      status := Status.error
      error := some "lyrics generation failed"
      completedAt := true }
  else
    let job := { job with status := Status.generatingAudio }
    if o.exitCode ≠ 0 then
      { job with
        status := Status.error
        error := some "subprocess exited with non-zero code"
        completedAt := true }
    else
      let files := collectResultFiles o.walkFiles
      if files.isEmpty then
        { job with
          status := Status.error
          error := some "No result files found in output directory"
          completedAt := true }
      else
        { job with
          status := Status.complete
          filePaths := some files
          completedAt := true }

/-! ### The minimal server variant (src/server.py) -/

/-- Abstraction of one job's output directory tree for `find_output_file`
(server.py lines 71-89): the top-level file names, the `vocoder/mix`
subdirectory (with its existence flag), and the recursive glob results. -/
structure OutTree where
  topFiles : List String
  vocoderMixExists : Bool
  vocoderMixFiles : List String
  allFiles : List String
deriving DecidableEq, Repr

/-- Shallow embedding of `find_output_file`: first `.mp3` at top level, else
the first `.mp3` in `vocoder/mix` when that directory exists, else the first
`.mp3` anywhere in the tree. -/
def find_output_file (d : OutTree) : Option String :=
  match d.topFiles.find? (fun f => strEndsWith f ".mp3") with
  | some f => some f
  | none =>
    match (if d.vocoderMixExists then
             d.vocoderMixFiles.find? (fun f => strEndsWith f ".mp3")
           else none) with
    | some f => some f
    | none => (d.allFiles.filter (fun f => strEndsWith f ".mp3")).head?

/-- The final `active_tasks[request_id]` value written by
`run_generation_task` (server.py lines 119-144) once the subprocess exited. -/
structure TaskInfo where
  status : String
  outputFile : Option String := none
  error : Option String := none
deriving DecidableEq, Repr

/-- Shallow embedding of the post-wait part of `run_generation_task`:
return code 0 plus a discoverable output file is "completed"; everything
else is "failed" with an error message. -/
def runGenerationTask (returnCode : Int) (d : OutTree) : TaskInfo :=
  if returnCode = 0 then
    match find_output_file d with
    | some p => { status := "completed", outputFile := some p }
    | none => { status := "failed", error := some "No output file generated" }
  else
    { status := "failed"
      error := some ("Command failed with return code " ++ toString returnCode) }

/-- C1: in both servers, an inference exit code of 0 with no discoverable
output artifact yields a terminal ERROR/failed record with the error field
set, and a COMPLETE/completed record requires both exit code 0 and at least
one discoverable artifact. -/
theorem success_requires_artifact (o : InferOracle) (r : JobRec)
    (rc : Int) (d : OutTree) :
    (o.exitCode = 0 ∧ collectResultFiles o.walkFiles = [] →
      (processYueRequest o r).status = Status.error ∧
      (processYueRequest o r).error.isSome = true) ∧
    ((processYueRequest o r).status = Status.complete →
      o.exitCode = 0 ∧ collectResultFiles o.walkFiles ≠ []) ∧
    (rc = 0 ∧ find_output_file d = none →
      (runGenerationTask rc d).status = "failed" ∧
      (runGenerationTask rc d).error.isSome = true) ∧
    ((runGenerationTask rc d).status = "completed" →
      rc = 0 ∧ find_output_file d ≠ none) := by
  refine ⟨?_, ?_, ?_, ?_⟩
  · rintro ⟨hrc, hfiles⟩
    unfold processYueRequest
    by_cases h1 : o.lyricsProvided = false ∧ o.lyricsGen = none
    · simp [h1]
    · simp only [h1, if_false, ite_false]
      simp [hrc, hfiles]
  · intro hc
    unfold processYueRequest at hc
    by_cases h1 : o.lyricsProvided = false ∧ o.lyricsGen = none
    · simp [h1] at hc
    · simp only [h1, ite_false] at hc
      by_cases h2 : o.exitCode ≠ 0
      · simp [h2] at hc
      · by_cases h3 : (collectResultFiles o.walkFiles).isEmpty
        · simp [h2, h3] at hc
        · refine ⟨by omega, ?_⟩
          intro hnil
          rw [hnil] at h3
          exact h3 rfl
  · rintro ⟨hrc, hfind⟩
    unfold runGenerationTask
    simp [hrc, hfind]
  · intro hc
    unfold runGenerationTask at hc
    by_cases hrc : rc = 0
    · rcases hf : find_output_file d with _ | p
      · simp [hrc, hf] at hc
      · exact ⟨hrc, by simp [hf]⟩
    · simp [hrc] at hc

/-- Closed witness for C1: exit code 0 with an empty output directory ends in
ERROR with the error field set. -/
theorem success_requires_artifact_witness :
    (processYueRequest ⟨true, none, 0, []⟩ { status := Status.processing }).status
        = Status.error ∧
    (processYueRequest ⟨true, none, 0, []⟩ { status := Status.processing }).error.isSome
        = true :=
  (success_requires_artifact ⟨true, none, 0, []⟩ { status := Status.processing }
    0 ⟨[], false, [], []⟩).1 ⟨rfl, rfl⟩

/-! ### Store-operation traces

`Op` records the observable operations on the shared `results` store: a
status write for a given request id, and a `save_results()` whole-snapshot
write of the store to disk. -/

/-- One observable store operation. -/
inductive Op where
  | setStatus (id : String) (s : Status)
  | save
deriving DecidableEq, Repr

/-- Is this operation a `save_results()` call? -/
def isSave : Op → Bool
  | Op.save => true
  | _ => false

/-- Is this operation a status write for job `id`? -/
def isStatusEvt (id : String) : Op → Bool
  | Op.setStatus i _ => i == id
  | Op.save => false

/-- Is this operation the PROCESSING write for job `id`? -/
def isProcessingEvt (id : String) : Op → Bool
  | Op.setStatus i s => i == id && s == Status.processing
  | Op.save => false

/-- Is this operation a terminal (COMPLETE or ERROR) write for job `id`? -/
def isTerminalEvt (id : String) : Op → Bool
  | Op.setStatus i s => i == id && s.isTerminal
  | Op.save => false

/-- Store operations of the audio-generation stage of `process_yue_request`
(yueBpw/server.py lines 244-325): GENERATING_AUDIO plus save, then a terminal
write plus save (ERROR on non-zero exit or empty scan, COMPLETE otherwise). -/
def audioOps (id : String) (o : InferOracle) : List Op :=
  [Op.setStatus id Status.generatingAudio, Op.save] ++
  (if o.exitCode ≠ 0 then [Op.setStatus id Status.error, Op.save]
   else if (collectResultFiles o.walkFiles).isEmpty then
     [Op.setStatus id Status.error, Op.save]
   else [Op.setStatus id Status.complete, Op.save])

/-- Store operations of `process_yue_request` (yueBpw/server.py lines
218-325), in source order. -/
def processOps (id : String) (o : InferOracle) : List Op :=
  if o.lyricsProvided then audioOps id o
  else
    [Op.setStatus id Status.generatingLyrics, Op.save] ++
    (match o.lyricsGen with
     | none => [Op.setStatus id Status.error, Op.save]
     | some _ => audioOps id o)

/-- Store operations of one iteration of the yueBpw worker loop
(`queue_processor`, lines 327-344): the PROCESSING write plus save, then the
processing call. -/
def workerJobOps (id : String) (o : InferOracle) : List Op :=
  [Op.setStatus id Status.processing, Op.save] ++ processOps id o

/-- Store operations of the yueBpw worker draining a queue in FIFO order. -/
def workerTrace (jobs : List (String × InferOracle)) : List Op :=
  jobs.flatMap (fun j => workerJobOps j.1 j.2)

/-- Store operations of a submission insert (yueBpw `generate`, lines
388-400; same pattern in `generate_track` lines 468-478 and
`generate_lyrics_by_genres` lines 836-850): insert the QUEUED record, then
save. -/
def submitOps (id : String) : List Op := [Op.setStatus id Status.queued, Op.save]

/-- Index of the first element of a list satisfying `p`. -/
def firstIdx {α : Type} (p : α → Bool) : List α → Option Nat
  | [] => none
  | a :: rest => if p a then some 0 else (firstIdx p rest).map (· + 1)

theorem firstIdx_append_of_none {α : Type} (p : α → Bool) (l₁ l₂ : List α)
    (h : firstIdx p l₁ = none) :
    firstIdx p (l₁ ++ l₂) = (firstIdx p l₂).map (· + l₁.length) := by
  induction l₁ with
  | nil =>
      simp only [List.nil_append, List.length_nil]
      cases firstIdx p l₂ <;> simp
  | cons a as ih =>
      by_cases hp : p a
      · simp [firstIdx, hp] at h
      · have hpa : p a = false := by simpa using hp
        simp only [firstIdx, List.cons_append, List.append_eq, hpa,
          Bool.false_eq_true, ite_false] at h ⊢
        have hnone : firstIdx p as = none := by
          cases hx : firstIdx p as
          · rfl
          · rw [hx] at h; simp at h
        rw [ih hnone]
        cases firstIdx p l₂
        · simp
        · simp [List.length_cons]
          omega

theorem firstIdx_append_of_some {α : Type} (p : α → Bool) (l₁ l₂ : List α)
    (k : Nat) (h : firstIdx p l₁ = some k) :
    firstIdx p (l₁ ++ l₂) = some k := by
  induction l₁ generalizing k with
  | nil => simp [firstIdx] at h
  | cons a as ih =>
      by_cases hp : p a
      · simp only [firstIdx, List.cons_append, hp, ite_true] at h ⊢
        exact h
      · have hpa : p a = false := by simpa using hp
        simp only [firstIdx, List.cons_append, List.append_eq, hpa,
          Bool.false_eq_true, ite_false] at h ⊢
        rcases Option.map_eq_some'.mp h with ⟨k', hk', rfl⟩
        rw [ih k' hk']
        rfl

theorem firstIdx_eq_none {α : Type} (p : α → Bool) (l : List α)
    (h : ∀ a ∈ l, p a = false) : firstIdx p l = none := by
  induction l with
  | nil => rfl
  | cons a as ih =>
      have ha := h a (List.mem_cons_self a as)
      simp only [firstIdx, ha, Bool.false_eq_true, ite_false]
      rw [ih (fun x hx => h x (List.mem_cons_of_mem a hx))]
      rfl

theorem firstIdx_isSome_of_mem {α : Type} (p : α → Bool) (l : List α) (a : α)
    (ha : a ∈ l) (hp : p a = true) : ∃ k, firstIdx p l = some k := by
  induction l with
  | nil => cases ha
  | cons b bs ih =>
      by_cases hb : p b
      · exact ⟨0, by simp [firstIdx, hb]⟩
      · rcases List.mem_cons.mp ha with rfl | ha'
        · rw [hp] at hb; exact absurd rfl hb
        · rcases ih ha' with ⟨k, hk⟩
          exact ⟨k + 1, by simp [firstIdx, hb, hk]⟩

theorem firstIdx_lt_length {α : Type} (p : α → Bool) (l : List α) (k : Nat)
    (h : firstIdx p l = some k) : k < l.length := by
  induction l generalizing k with
  | nil => simp [firstIdx] at h
  | cons a as ih =>
      by_cases hp : p a
      · simp only [firstIdx, hp, ite_true, Option.some.injEq] at h
        simp [← h]
      · have hpa : p a = false := by simpa using hp
        simp only [firstIdx, hpa, Bool.false_eq_true, ite_false] at h
        rcases Option.map_eq_some'.mp h with ⟨k', hk', rfl⟩
        have := ih k' hk'
        simp only [List.length_cons]
        omega

/-- Every operation in a list touches only job `i` (saves touch nobody). -/
def opOwnedBy (i : String) : Op → Bool
  | Op.setStatus j _ => j == i
  | Op.save => true

theorem audioOps_owned (i : String) (o : InferOracle) :
    (audioOps i o).all (opOwnedBy i) = true := by
  unfold audioOps
  by_cases h2 : o.exitCode ≠ 0 <;>
    by_cases h3 : (collectResultFiles o.walkFiles).isEmpty <;>
    simp [h2, h3, opOwnedBy]

theorem processOps_owned (i : String) (o : InferOracle) :
    (processOps i o).all (opOwnedBy i) = true := by
  unfold processOps
  by_cases h1 : o.lyricsProvided
  · simpa [h1] using audioOps_owned i o
  · rcases hg : o.lyricsGen with _ | s <;>
      simp [h1, hg, opOwnedBy, audioOps_owned i o]

theorem workerJobOps_owned (i : String) (o : InferOracle) :
    (workerJobOps i o).all (opOwnedBy i) = true := by
  simp [workerJobOps, opOwnedBy, processOps_owned i o]

theorem no_status_of_owned (i j : String) (hji : i ≠ j) (l : List Op)
    (hl : l.all (opOwnedBy i) = true) : ∀ op ∈ l, isStatusEvt j op = false := by
  intro op hop
  have hop' := List.all_eq_true.mp hl op hop
  cases op with
  | save => rfl
  | setStatus k s =>
      have hk : k = i := by simpa [opOwnedBy] using hop'
      subst hk
      simp only [isStatusEvt, beq_eq_false_iff_ne, ne_eq]
      exact hji

theorem workerTrace_no_status (l : List (String × InferOracle)) (j : String)
    (hl : ∀ x ∈ l, x.1 ≠ j) : ∀ op ∈ workerTrace l, isStatusEvt j op = false := by
  induction l with
  | nil => intro op hop; cases hop
  | cons x xs ih =>
      intro op hop
      have : workerTrace (x :: xs) = workerJobOps x.1 x.2 ++ workerTrace xs := rfl
      rw [this] at hop
      rcases List.mem_append.mp hop with h | h
      · exact no_status_of_owned x.1 j (hl x (List.mem_cons_self x xs)) _
          (workerJobOps_owned x.1 x.2) op h
      · exact ih (fun y hy => hl y (List.mem_cons_of_mem x hy)) op h

theorem terminal_false_of_status_false (j : String) (op : Op)
    (h : isStatusEvt j op = false) : isTerminalEvt j op = false := by
  cases op with
  | save => rfl
  | setStatus k s =>
      simp only [isStatusEvt] at h
      simp [isTerminalEvt, h]

theorem processing_false_of_status_false (j : String) (op : Op)
    (h : isStatusEvt j op = false) : isProcessingEvt j op = false := by
  cases op with
  | save => rfl
  | setStatus k s =>
      simp only [isStatusEvt] at h
      simp [isProcessingEvt, h]

theorem processOps_any_terminal (i : String) (o : InferOracle) :
    (processOps i o).any (isTerminalEvt i) = true := by
  unfold processOps audioOps
  by_cases h1 : o.lyricsProvided <;> rcases hg : o.lyricsGen with _ | s <;>
    by_cases h2 : o.exitCode ≠ 0 <;>
    by_cases h3 : (collectResultFiles o.walkFiles).isEmpty <;>
    simp [h1, hg, h2, h3, isTerminalEvt, Status.isTerminal]

theorem workerJobOps_terminal (i : String) (o : InferOracle) :
    ∃ k, firstIdx (isTerminalEvt i) (workerJobOps i o) = some k := by
  rcases List.any_eq_true.mp (processOps_any_terminal i o) with ⟨op, hop, hterm⟩
  rcases firstIdx_isSome_of_mem (isTerminalEvt i) (processOps i o) op hop hterm with ⟨k, hk⟩
  refine ⟨k + 1 + 1, ?_⟩
  have h1 : isTerminalEvt i (Op.setStatus i Status.processing) = false := by
    simp [isTerminalEvt, Status.isTerminal]
  have h2 : isTerminalEvt i Op.save = false := rfl
  simp [workerJobOps, firstIdx, h1, h2, hk]

theorem workerJobOps_head_processing (i : String) (o : InferOracle) :
    firstIdx (isProcessingEvt i) (workerJobOps i o) = some 0 ∧
    firstIdx (isStatusEvt i) (workerJobOps i o) = some 0 := by
  constructor <;> simp [workerJobOps, firstIdx, isProcessingEvt, isStatusEvt]

/-- C2: the single worker drains the queue strictly in FIFO order.  For any
queue in which job A is enqueued before job B (ids distinct and not repeated
by earlier entries), A's first terminal (COMPLETE or ERROR) status write
occurs strictly before B's first status write of any kind, and B's first
status write is exactly its PROCESSING write — so B does not reach PROCESSING
(nor any later state) before A reaches a terminal state. -/
theorem worker_fifo (u v w : List (String × InferOracle))
    (idA idB : String) (oA oB : InferOracle)
    (huA : ∀ x ∈ u, x.1 ≠ idA) (huB : ∀ x ∈ u, x.1 ≠ idB)
    (hAB : idA ≠ idB) (hvB : ∀ x ∈ v, x.1 ≠ idB) :
    ∃ pA pB,
      firstIdx (isTerminalEvt idA)
        (workerTrace (u ++ (idA, oA) :: v ++ (idB, oB) :: w)) = some pA ∧
      firstIdx (isStatusEvt idB)
        (workerTrace (u ++ (idA, oA) :: v ++ (idB, oB) :: w)) = some pB ∧
      firstIdx (isProcessingEvt idB)
        (workerTrace (u ++ (idA, oA) :: v ++ (idB, oB) :: w)) = some pB ∧
      pA < pB := by
  have hsplit : workerTrace (u ++ (idA, oA) :: v ++ (idB, oB) :: w) =
      workerTrace u ++ (workerJobOps idA oA ++ (workerTrace v ++
        (workerJobOps idB oB ++ workerTrace w))) := by
    simp [workerTrace, List.flatMap_append, List.flatMap_cons]
  have hTu_noA : ∀ op ∈ workerTrace u, isTerminalEvt idA op = false := fun op hop =>
    terminal_false_of_status_false idA op (workerTrace_no_status u idA huA op hop)
  rcases workerJobOps_terminal idA oA with ⟨kA, hkA⟩
  have hkAlt := firstIdx_lt_length _ _ _ hkA
  have hA : firstIdx (isTerminalEvt idA)
      (workerTrace u ++ (workerJobOps idA oA ++ (workerTrace v ++
        (workerJobOps idB oB ++ workerTrace w)))) =
      some (kA + (workerTrace u).length) := by
    rw [firstIdx_append_of_none _ _ _ (firstIdx_eq_none _ _ hTu_noA),
      firstIdx_append_of_some _ _ _ kA hkA]
    rfl
  have hBcalc : ∀ P : Op → Bool,
      (∀ op, isStatusEvt idB op = false → P op = false) →
      firstIdx P (workerJobOps idB oB) = some 0 →
      firstIdx P (workerTrace u ++ (workerJobOps idA oA ++ (workerTrace v ++
        (workerJobOps idB oB ++ workerTrace w)))) =
        some (((0 + (workerTrace v).length) + (workerJobOps idA oA).length) +
          (workerTrace u).length) := by
    intro P hPfalse hPblock
    have hTu : firstIdx P (workerTrace u) = none :=
      firstIdx_eq_none _ _ (fun op hop =>
        hPfalse op (workerTrace_no_status u idB huB op hop))
    have hblockA : firstIdx P (workerJobOps idA oA) = none :=
      firstIdx_eq_none _ _ (fun op hop => hPfalse op
        (no_status_of_owned idA idB hAB _ (workerJobOps_owned idA oA) op hop))
    have hTv : firstIdx P (workerTrace v) = none :=
      firstIdx_eq_none _ _ (fun op hop =>
        hPfalse op (workerTrace_no_status v idB hvB op hop))
    have h4 : firstIdx P (workerJobOps idB oB ++ workerTrace w) = some 0 :=
      firstIdx_append_of_some _ _ _ 0 hPblock
    have h3 : firstIdx P (workerTrace v ++ (workerJobOps idB oB ++ workerTrace w)) =
        some (0 + (workerTrace v).length) := by
      rw [firstIdx_append_of_none _ _ _ hTv, h4]; rfl
    have h2 : firstIdx P (workerJobOps idA oA ++ (workerTrace v ++
        (workerJobOps idB oB ++ workerTrace w))) =
        some ((0 + (workerTrace v).length) + (workerJobOps idA oA).length) := by
      rw [firstIdx_append_of_none _ _ _ hblockA, h3]; rfl
    rw [firstIdx_append_of_none _ _ _ hTu, h2]; rfl
  have hBstatus := hBcalc (isStatusEvt idB) (fun op h => h)
    (workerJobOps_head_processing idB oB).2
  have hBproc := hBcalc (isProcessingEvt idB)
    (fun op h => processing_false_of_status_false idB op h)
    (workerJobOps_head_processing idB oB).1
  refine ⟨kA + (workerTrace u).length,
    ((0 + (workerTrace v).length) + (workerJobOps idA oA).length) +
      (workerTrace u).length, ?_, ?_, ?_, ?_⟩
  · rw [hsplit]; exact hA
  · rw [hsplit]; exact hBstatus
  · rw [hsplit]; exact hBproc
  · omega

/-- Closed witness for C2 on a concrete two-job queue. -/
theorem worker_fifo_witness :
    ∃ pA pB,
      firstIdx (isTerminalEvt "a")
        (workerTrace ([] ++ ("a", ⟨true, none, 0, [("x.wav", "a/x.wav")]⟩) :: [] ++
          ("b", ⟨true, none, 0, [("y.wav", "b/y.wav")]⟩) :: [])) = some pA ∧
      firstIdx (isStatusEvt "b")
        (workerTrace ([] ++ ("a", ⟨true, none, 0, [("x.wav", "a/x.wav")]⟩) :: [] ++
          ("b", ⟨true, none, 0, [("y.wav", "b/y.wav")]⟩) :: [])) = some pB ∧
      firstIdx (isProcessingEvt "b")
        (workerTrace ([] ++ ("a", ⟨true, none, 0, [("x.wav", "a/x.wav")]⟩) :: [] ++
          ("b", ⟨true, none, 0, [("y.wav", "b/y.wav")]⟩) :: [])) = some pB ∧
      pA < pB :=
  worker_fifo [] [] [] "a" "b" ⟨true, none, 0, [("x.wav", "a/x.wav")]⟩
    ⟨true, none, 0, [("y.wav", "b/y.wav")]⟩
    (fun x hx => absurd hx (List.not_mem_nil x))
    (fun x hx => absurd hx (List.not_mem_nil x))
    (by decide)
    (fun x hx => absurd hx (List.not_mem_nil x))

/-! ### Persistence discipline (C3) -/

/-- True when the list contains a `save_results()` operation. -/
def hasSave (l : List Op) : Bool := l.any isSave

/-- Every status write in the trace is followed, later in the trace (and in
the embedded code, before the mutating call returns), by a whole-snapshot
save of the store. -/
def everyMutationSaved : List Op → Bool
  | [] => true
  | Op.setStatus _ _ :: rest => hasSave rest && everyMutationSaved rest
  | Op.save :: rest => everyMutationSaved rest

theorem hasSave_append_left (l₁ l₂ : List Op) (h : hasSave l₁ = true) :
    hasSave (l₁ ++ l₂) = true := by
  simp only [hasSave, List.any_append]
  simp only [hasSave] at h
  simp [h]

theorem everyMutationSaved_append (l₁ l₂ : List Op)
    (h₁ : everyMutationSaved l₁ = true) (h₂ : everyMutationSaved l₂ = true) :
    everyMutationSaved (l₁ ++ l₂) = true := by
  induction l₁ with
  | nil => simpa using h₂
  | cons op rest ih =>
      cases op with
      | save =>
          simp only [everyMutationSaved, List.cons_append] at h₁ ⊢
          exact ih h₁
      | setStatus i s =>
          simp only [everyMutationSaved, List.cons_append,
            Bool.and_eq_true] at h₁ ⊢
          exact ⟨hasSave_append_left rest l₂ h₁.1, ih h₁.2⟩

theorem workerJobOps_saved (i : String) (o : InferOracle) :
    everyMutationSaved (workerJobOps i o) = true := by
  unfold workerJobOps processOps audioOps
  by_cases h1 : o.lyricsProvided <;> rcases hg : o.lyricsGen with _ | s <;>
    by_cases h2 : o.exitCode ≠ 0 <;>
    by_cases h3 : (collectResultFiles o.walkFiles).isEmpty <;>
    simp [h1, hg, h2, h3, everyMutationSaved, hasSave, isSave]

/-- C3 amended: in the yueBpw server, every status mutation performed by the
worker loop (PROCESSING, GENERATING_LYRICS, GENERATING_AUDIO, and the
terminal write), and every submission insert, is followed by a
`save_results()` whole-snapshot write of the full in-memory job map before
the mutating call returns.  (The Vertex variant violates the original claim:
it never persists at all — see the counterexample.) -/
theorem yueBpw_mutations_saved (jobs : List (String × InferOracle)) (id : String) :
    everyMutationSaved (workerTrace jobs) = true ∧
    everyMutationSaved (submitOps id) = true := by
  constructor
  · induction jobs with
    | nil => rfl
    | cons j js ih =>
        have hsplit : workerTrace (j :: js) =
            workerJobOps j.1 j.2 ++ workerTrace js := rfl
        rw [hsplit]
        exact everyMutationSaved_append _ _ (workerJobOps_saved j.1 j.2) ih
  · rfl

/-! ### The Vertex variant (yueBpw/vertex/server.py) -/

/-- Oracle inputs for the Vertex upload stage: whether the GCS client is
configured, the outcomes of the individual `put_object` calls, and the WAV
files found by walking the output directory (path and size, in walk order). -/
structure UploadOracle where
  gcsClient : Bool
  lyricsOk : Bool
  genreOk : Bool
  wavFiles : List (String × Nat)
  wavOk : Bool
  doneOk : Bool
deriving DecidableEq, Repr

/-- `upload_to_gcs` (vertex/server.py lines 584-628): returns False when the
client is missing, otherwise reports the outcome of the put call. -/
def upload_to_gcs (client : Bool) (ok : Bool) : Bool :=
  if !client then false else ok

/-- `max(wav_files_found, key=lambda x: x[1])` on a non-empty list: the first
WAV file of maximal size (Python's `max` keeps the earliest among ties). -/
def pickLargestWav : List (String × Nat) → Option (String × Nat)
  | [] => none
  | f :: rest => some (rest.foldl (fun b x => if x.2 > b.2 then x else b) f)

/-- Fields written into `results[request_id]` by the upload stage of the
Vertex `process_yue_request`, plus the list of GCS objects actually written
(an observable side effect even when the job later errors). -/
structure VertexOutcome where
  status : Status
  uploadedFiles : List (String × String)
  localWav : Option String
  error : Option String
  gcsWrites : List String
deriving DecidableEq, Repr

/-- Shallow embedding of the upload stage of the Vertex `process_yue_request`
(vertex/server.py lines 814-953), entered only after a successful inference:
lyrics.txt, genre.txt and the largest discovered WAV are uploaded one after
the other (one failure does not prevent the later attempts, but any failure
clears `upload_success`, as does finding no WAV at all); with a configured
client the record becomes COMPLETE only when `upload_success` survived (the
done.txt marker upload is attempted but non-fatal), a missing client falls
back to COMPLETE with the local WAV path, and otherwise the raise lands in
the except handler which writes ERROR. -/
def uploadStage (o : UploadOracle) : VertexOutcome :=
  let s1 := upload_to_gcs o.gcsClient o.lyricsOk
  let uploaded1 : List (String × String) :=
    if s1 then [("lyrics.txt", "gs://lyrics.txt")] else []
  let s2 := upload_to_gcs o.gcsClient o.genreOk
  let uploaded2 :=
    if s2 then uploaded1 ++ [("genre.txt", "gs://genre.txt")] else uploaded1
  let s3 := match pickLargestWav o.wavFiles with
    | some _ => upload_to_gcs o.gcsClient o.wavOk
    | none => false
  let uploaded3 :=
    if s3 then uploaded2 ++ [("song.wav", "gs://song.wav")] else uploaded2
  let uploadSuccess := s1 && s2 && s3
  if o.gcsClient && uploadSuccess then
    let s4 := upload_to_gcs o.gcsClient o.doneOk
    let uploaded4 :=
      if s4 then uploaded3 ++ [("done.txt", "gs://done.txt")] else uploaded3
    { status := Status.complete
      uploadedFiles := uploaded4
      localWav := none
      error := none
      gcsWrites := uploaded4.map Prod.fst }
  else if !o.gcsClient then
    { status := Status.complete
      uploadedFiles := []
      localWav := (o.wavFiles.head?).map Prod.fst
      error := none
      gcsWrites := [] }
  else
    { status := Status.error
      uploadedFiles := []
      localWav := none
      error := some "Failed to upload one or more files to GCS"
      gcsWrites := uploaded3.map Prod.fst }

/-- Store operations of the Vertex worker processing one job (vertex
`queue_processor` lines 955-972 driving `process_yue_request` lines 643-953):
status writes only — the Vertex variant keeps `results` in memory and has no
persistence function at all, so no save operation ever appears. -/
def vertexWorkerJobOps (id : String) (inferOk : Bool) (o : UploadOracle) : List Op :=
  [Op.setStatus id Status.processing, Op.setStatus id Status.generatingAudio] ++
  (if inferOk then
    [Op.setStatus id Status.uploading, Op.setStatus id (uploadStage o).status]
  else [Op.setStatus id Status.error])

/-- C3 counterexample: one Vertex worker iteration (a source cited by the
claim) performs status mutations yet its trace contains no persistence write
at all, so the claim that every worker status mutation is followed by a
whole-snapshot persist before the mutating call returns is false for the
repository's worker code. -/
theorem vertex_mutations_not_saved_counterexample :
    everyMutationSaved
      (vertexWorkerJobOps "j1" true ⟨true, true, true, [("a.wav", 1)], true, true⟩)
      = false ∧
    (vertexWorkerJobOps "j1" true ⟨true, true, true, [("a.wav", 1)], true, true⟩).any
      (fun op => !isSave op) = true ∧
    hasSave
      (vertexWorkerJobOps "j1" true ⟨true, true, true, [("a.wav", 1)], true, true⟩)
      = false :=
  ⟨rfl, rfl, rfl⟩

/-- C4 counterexample: with a configured client, the lyrics upload fails but
the genre and WAV uploads succeed — so NOT all required uploads failed, and
two objects were in fact written to storage — yet the job transitions to
ERROR.  A single upload failure is fatal to the job, contradicting "ERROR
only if ALL required uploads fail". -/
theorem uploadStage_any_failure_errors_counterexample :
    (uploadStage ⟨true, false, true, [("a.wav", 5)], true, true⟩).status
      = Status.error ∧
    (uploadStage ⟨true, false, true, [("a.wav", 5)], true, true⟩).gcsWrites
      = ["genre.txt", "song.wav"] ∧
    (uploadStage ⟨true, false, true, [("a.wav", 5)], true, true⟩).error.isSome
      = true :=
  ⟨rfl, rfl, rfl⟩

/-- C4 amended: each individual upload failure is non-fatal to the other
upload attempts (the genre upload is performed and recorded even when the
lyrics upload failed), but with a configured storage client the job completes
only when every required upload succeeded (lyrics, genre, and a discovered
WAV) and transitions to ERROR if ANY of them fails or no WAV is found; when
the storage client is absent the job is instead marked COMPLETE with an empty
uploaded-files manifest and the local WAV path recorded. -/
theorem uploadStage_amended (o : UploadOracle) :
    (o.gcsClient = true →
      ((uploadStage o).status = Status.complete ↔
        (o.lyricsOk = true ∧ o.genreOk = true ∧ o.wavFiles ≠ [] ∧ o.wavOk = true))) ∧
    (o.gcsClient = false →
      ((uploadStage o).status = Status.complete ∧
       (uploadStage o).uploadedFiles = [] ∧
       (uploadStage o).localWav = (o.wavFiles.head?).map Prod.fst)) ∧
    (o.gcsClient = true → o.genreOk = true →
      "genre.txt" ∈ (uploadStage o).gcsWrites) := by
  rcases o with ⟨client, ly, ge, wf, wv, dn⟩
  cases client
  · simp [uploadStage, upload_to_gcs]
  · cases ly <;> cases ge <;> cases wv <;> cases dn <;> rcases wf with _ | ⟨f, rest⟩ <;>
      simp [uploadStage, upload_to_gcs, pickLargestWav]

/-- Closed witness for the amended C4: no storage client configured, the job
is COMPLETE with an empty manifest and the local WAV path. -/
theorem uploadStage_amended_witness :
    (uploadStage ⟨false, false, false, [("a.wav", 3)], false, false⟩).status
        = Status.complete ∧
    (uploadStage ⟨false, false, false, [("a.wav", 3)], false, false⟩).uploadedFiles
        = [] ∧
    (uploadStage ⟨false, false, false, [("a.wav", 3)], false, false⟩).localWav
        = ((([("a.wav", 3)] : List (String × Nat)).head?).map Prod.fst) :=
  (uploadStage_amended ⟨false, false, false, [("a.wav", 3)], false, false⟩).2.1 rfl

/-! ### Queue position reporting (C5) -/

/-- The record inserted by the `generate` endpoint (yueBpw/server.py lines
388-400): QUEUED, with the stored queue position equal to the live queue
length at submission time and a wait estimate of sixty seconds per queued
job. -/
def submitRecord (queueLen : Nat) : JobRec :=
  { status := Status.queued
    queuePosition := queueLen
    estimatedWait := queueLen * 60 }

/-- The status-read view computed by `get_result` (yueBpw/server.py lines
562-585): the stored record is copied and, only when the stored status is
QUEUED, its queue position and wait estimate are recomputed by scanning the
live queue; the scan loop starts from `position = 0` and breaks at the first
occurrence of the id, so an id absent from the queue is reported at
position 0. -/
def getResultView (queueIds : List String) (id : String) (r : JobRec) : JobRec :=
  if r.status = Status.queued then
    let position := (firstIdx (fun q => q == id) queueIds).getD 0
    { r with queuePosition := position, estimatedWait := position * 60 }
  else r

/-- C5 counterexample: a job whose stored status is QUEUED but which has
already been dequeued (absent from the live queue) is reported at queue
position 0 — a position, not a "not found" outcome — and a job in any
non-QUEUED state is reported with its stored submission-time position (here
the stale value 5), not a value derived from the live queue at read time. -/
theorem getResultView_counterexample :
    (getResultView [] "j1"
      { status := Status.queued, queuePosition := 5, estimatedWait := 300 }).queuePosition
      = 0 ∧
    (getResultView [] "j2"
      { status := Status.processing, queuePosition := 5, estimatedWait := 300 }).queuePosition
      = 5 :=
  ⟨rfl, rfl⟩

/-- C5 amended: only when the stored status is QUEUED does the read rescan
the live queue; the reported position is then the 0-based index of the job's
first occurrence in the queue (the count of jobs ahead of it) and the wait
estimate is sixty seconds per position, while an id absent from the queue is
reported at position 0 rather than "not found"; for any other stored status
the read returns the stored record (including its submission-time position)
unchanged. -/
theorem getResultView_amended (queueIds : List String) (id : String) (r : JobRec) :
    (r.status = Status.queued →
      (∀ k, firstIdx (fun q => q == id) queueIds = some k →
        (getResultView queueIds id r).queuePosition = k ∧
        (getResultView queueIds id r).estimatedWait = k * 60) ∧
      (firstIdx (fun q => q == id) queueIds = none →
        (getResultView queueIds id r).queuePosition = 0 ∧
        (getResultView queueIds id r).estimatedWait = 0)) ∧
    (r.status ≠ Status.queued → getResultView queueIds id r = r) := by
  constructor
  · intro hq
    constructor
    · intro k hk
      unfold getResultView
      simp [hq, hk]
    · intro hk
      unfold getResultView
      simp [hq, hk]
  · intro hq
    unfold getResultView
    simp [hq]

/-- Closed witness for the amended C5: a QUEUED job one position behind the
head of the live queue is reported at position 1 with a 60-second wait. -/
theorem getResultView_amended_witness :
    (getResultView ["a", "j1"] "j1" (submitRecord 1)).queuePosition = 1 ∧
    (getResultView ["a", "j1"] "j1" (submitRecord 1)).estimatedWait = 60 :=
  ((getResultView_amended ["a", "j1"] "j1" (submitRecord 1)).1 rfl).1 1 rfl

/-! ### Startup recovery pass (C9) and the manifest invariant (C6) -/

/-- Per-job filesystem view for the repair pass: whether the job's output
directory exists, and the files found by walking it
(`(filename, relative path)` pairs). -/
structure FsView where
  dirExists : String → Bool
  walk : String → List (String × String)

/-- Shallow embedding of `repair_request_paths` (yueBpw/server.py lines
651-685) applied to an already-looked-up record: `none` models the failure
returns (output directory missing, or no file with a recognized extension
found); otherwise the record with the rebuilt `file_paths` manifest and the
`output_dir` field set.  The source never touches the status field. -/
def repairRequestPaths (fs : FsView) (id : String) (r : JobRec) : Option JobRec :=
  if !fs.dirExists id then none
  else
    let files := collectResultFiles (fs.walk id)
    if files.isEmpty then none
    else some { r with filePaths := some files, outputDir := some id }

/-- `not result.get('file_paths') or len(result['file_paths']) == 0`. -/
def manifestMissing (r : JobRec) : Bool :=
  match r.filePaths with
  | none => true
  | some l => l.isEmpty

/-- The per-entry action of `repair_all_requests` (yueBpw/server.py lines
688-706): only a COMPLETE record with an empty or missing manifest is
repaired, and a failed repair leaves the record untouched. -/
def repairOne (fs : FsView) (id : String) (r : JobRec) : JobRec :=
  if r.status = Status.complete ∧ manifestMissing r = true then
    match repairRequestPaths fs id r with
    | some r2 => r2
    | none => r
  else r

/-- Shallow embedding of `repair_all_requests` over the whole results map. -/
def repairAllRequests (fs : FsView) (m : List (String × JobRec)) :
    List (String × JobRec) :=
  m.map (fun e => (e.1, repairOne fs e.1 e.2))

theorem repairRequestPaths_some (fs : FsView) (id : String) (r r2 : JobRec)
    (h : repairRequestPaths fs id r = some r2) :
    r2.status = r.status ∧ r2.error = r.error ∧
    r2.filePaths = some (collectResultFiles (fs.walk id)) ∧
    collectResultFiles (fs.walk id) ≠ [] := by
  unfold repairRequestPaths at h
  by_cases hd : fs.dirExists id
  · simp only [hd, Bool.not_true, Bool.false_eq_true, ite_false] at h
    by_cases he : (collectResultFiles (fs.walk id)).isEmpty
    · simp [he] at h
    · simp only [he, Bool.false_eq_true, ite_false, Option.some.injEq] at h
      subst h
      refine ⟨rfl, rfl, rfl, ?_⟩
      intro hnil
      rw [hnil] at he
      exact he rfl
  · simp [hd] at h

/-- C9: the startup recovery pass preserves every entry's id and status,
leaves any non-COMPLETE record entirely unchanged, leaves any record whose
manifest is already non-empty entirely unchanged, and when the artifacts
cannot be rediscovered it leaves the COMPLETE record as it was (still
COMPLETE, manifest still empty). -/
theorem repairAllRequests_frame (fs : FsView) (m : List (String × JobRec))
    (i : Nat) (id : String) (r : JobRec) (h : m[i]? = some (id, r)) :
    (repairAllRequests fs m)[i]? = some (id, repairOne fs id r) ∧
    (repairOne fs id r).status = r.status ∧
    (r.status ≠ Status.complete → repairOne fs id r = r) ∧
    (manifestMissing r = false → repairOne fs id r = r) ∧
    (repairRequestPaths fs id r = none → repairOne fs id r = r) := by
  refine ⟨?_, ?_, ?_, ?_, ?_⟩
  · unfold repairAllRequests
    rw [List.getElem?_map, h]
    rfl
  · unfold repairOne
    by_cases hc : r.status = Status.complete ∧ manifestMissing r = true
    · rw [if_pos hc]
      rcases hrep : repairRequestPaths fs id r with _ | r2
      · rfl
      · exact (repairRequestPaths_some fs id r r2 hrep).1
    · rw [if_neg hc]
  · intro hs
    unfold repairOne
    have : ¬(r.status = Status.complete ∧ manifestMissing r = true) :=
      fun hc => hs hc.1
    simp [this]
  · intro hm
    unfold repairOne
    have : ¬(r.status = Status.complete ∧ manifestMissing r = true) := by
      rintro ⟨_, hmm⟩
      rw [hm] at hmm
      exact Bool.false_ne_true hmm
    simp [this]
  · intro hrep
    unfold repairOne
    by_cases hc : r.status = Status.complete ∧ manifestMissing r = true
    · rw [if_pos hc, hrep]
    · rw [if_neg hc]

/-- Closed witness for C9: an ERROR record is untouched by the recovery
pass, and the pass preserves its position and id in the map. -/
theorem repairAllRequests_frame_witness :
    (repairAllRequests
      { dirExists := fun _ => true, walk := fun _ => [("song.wav", "j1/song.wav")] }
      [("j1", { status := Status.error, error := some "boom" })])[0]?
      = some ("j1", repairOne
          { dirExists := fun _ => true, walk := fun _ => [("song.wav", "j1/song.wav")] }
          "j1" { status := Status.error, error := some "boom" }) ∧
    repairOne
      { dirExists := fun _ => true, walk := fun _ => [("song.wav", "j1/song.wav")] }
      "j1" { status := Status.error, error := some "boom" }
      = { status := Status.error, error := some "boom" } :=
  ⟨(repairAllRequests_frame
      { dirExists := fun _ => true, walk := fun _ => [("song.wav", "j1/song.wav")] }
      [("j1", { status := Status.error, error := some "boom" })] 0 "j1"
      { status := Status.error, error := some "boom" } rfl).1,
   (repairAllRequests_frame
      { dirExists := fun _ => true, walk := fun _ => [("song.wav", "j1/song.wav")] }
      [("j1", { status := Status.error, error := some "boom" })] 0 "j1"
      { status := Status.error, error := some "boom" } rfl).2.2.1 (by decide)⟩

/-- C6 counterexample: the repair endpoint (`/repair/<id>`, which calls
`repair_request_paths` directly) performs no status check, so it attaches a
non-empty manifest to a job whose status is ERROR.  This state is reachable:
the inference subprocess writes a WAV file and then exits non-zero (job →
ERROR, files on disk), after which a caller POSTs `/repair/<id>`.  The
resulting record has a non-empty manifest with a non-COMPLETE status,
refuting the claimed biconditional. -/
theorem manifest_iff_complete_counterexample :
    repairRequestPaths
      { dirExists := fun _ => true, walk := fun _ => [("song.wav", "j1/song.wav")] }
      "j1" { status := Status.error, error := some "infer failed" }
      = some { status := Status.error
               error := some "infer failed"
               filePaths := some [("song.wav", "j1/song.wav")]
               outputDir := some "j1" } ∧
    Status.error ≠ Status.complete :=
  ⟨rfl, by decide⟩

/-- C6 amended: along the worker pipeline the biconditional does hold — a
record whose manifest starts out absent ends COMPLETE iff its manifest ends
non-empty, since only the success transition populates `file_paths` — but it
is not an invariant of every reachable store state: the repair endpoint can
attach a non-empty manifest to an ERROR job (see the counterexample), and
the Vertex local-storage completion path leaves the uploaded-files manifest
empty on a COMPLETE job. -/
theorem manifest_iff_complete_amended (o : InferOracle) (r : JobRec)
    (h : r.filePaths = none) :
    (processYueRequest o r).status = Status.complete ↔
      ∃ l, (processYueRequest o r).filePaths = some l ∧ l ≠ [] := by
  unfold processYueRequest
  rcases o with ⟨lp, lg, ec, wf⟩
  cases lp <;> rcases lg with _ | s <;> by_cases h2 : ec ≠ 0 <;>
    rcases h3 : (collectResultFiles wf).isEmpty with _ | _ <;>
    simp_all

/-- Closed witness for the amended C6: a successful run with one WAV artifact
is COMPLETE with that artifact in the manifest. -/
theorem manifest_iff_complete_amended_witness :
    (processYueRequest ⟨true, none, 0, [("a.wav", "j/a.wav")]⟩
      { status := Status.processing }).status = Status.complete ↔
      ∃ l, (processYueRequest ⟨true, none, 0, [("a.wav", "j/a.wav")]⟩
        { status := Status.processing }).filePaths = some l ∧ l ≠ [] :=
  manifest_iff_complete_amended ⟨true, none, 0, [("a.wav", "j/a.wav")]⟩
    { status := Status.processing } rfl

/-! ### Runtime provider switching (C10) -/

/-- Global provider state of yueBpw/server.py: the module-level
`lyrics_provider` string and `lyrics_generator` object (abstracted to an
opaque handle). -/
structure ProviderState where
  lyricsProvider : String
  lyricsGenerator : Nat
deriving DecidableEq, Repr

/-- Environment of the `/provider` POST endpoint: the configured API keys and
the `create_lyrics_generator` constructor (`none` models the constructor
raising). -/
structure ProviderEnv where
  googleKey : Option String
  anthropicKey : Option String
  createGen : String → Option Nat

/-- Responses of the `set_provider` handler. -/
inductive ProviderResp where
  | badRequest (msg : String)
  | serverError (msg : String)
  | ok (msg : String)
deriving DecidableEq, Repr

/-- An error (400 or 500) response. -/
def ProviderResp.isErr : ProviderResp → Bool
  | .ok _ => false
  | _ => true

/-- Shallow embedding of the `/provider` POST handler `set_provider`
(yueBpw/server.py lines 985-1058).  `body` is `none` for a non-JSON request,
`some none` when the JSON lacks the provider field, otherwise the field's
value.  The config-file rewrite after the switch is wrapped in its own
try/except in the source and cannot affect the outcome, so it is not
modelled. -/
def set_provider (env : ProviderEnv) (st : ProviderState)
    (body : Option (Option String)) : ProviderResp × ProviderState :=
  match body with
  | none => (ProviderResp.badRequest "Content-Type must be application/json", st)
  | some none => (ProviderResp.badRequest "Missing required field: provider", st)
  | some (some p0) =>
    let p := pyLower p0
    if !(p == "gemini" || p == "anthropic") then
      (ProviderResp.badRequest
        "Invalid provider. Supported providers: gemini, anthropic", st)
    else if p == "gemini" && env.googleKey.isNone then
      (ProviderResp.badRequest
        "Cannot switch to Gemini: Google API key not configured", st)
    else if p == "anthropic" && env.anthropicKey.isNone then
      (ProviderResp.badRequest
        "Cannot switch to Anthropic: Anthropic API key not configured", st)
    else if p == st.lyricsProvider then
      (ProviderResp.ok "already active", st)
    else
      match env.createGen p with
      | some g =>
          (ProviderResp.ok "switched",
            { lyricsProvider := p, lyricsGenerator := g })
      | none => (ProviderResp.serverError "Error switching provider", st)

/-- C10: the provider switch is atomic on error — every bad-request and
server-error response (unsupported provider, missing API key, constructor
raise) leaves the active provider and generator exactly as they were — and
the global state is reassigned only after the new generator has been
constructed successfully, to exactly the requested provider and that
generator. -/
theorem set_provider_atomic (env : ProviderEnv) (st : ProviderState)
    (body : Option (Option String)) :
    ((set_provider env st body).1.isErr = true →
      (set_provider env st body).2 = st) ∧
    ((set_provider env st body).2 ≠ st →
      ∃ p0 g, body = some (some p0) ∧
        env.createGen (pyLower p0) = some g ∧
        (set_provider env st body).2 =
          { lyricsProvider := pyLower p0, lyricsGenerator := g } ∧
        (set_provider env st body).1 = ProviderResp.ok "switched") := by
  rcases body with _ | b
  · exact ⟨fun _ => rfl, fun hne => absurd rfl hne⟩
  · rcases b with _ | p0
    · exact ⟨fun _ => rfl, fun hne => absurd rfl hne⟩
    · simp only [set_provider]
      by_cases h1 : !(pyLower p0 == "gemini" || pyLower p0 == "anthropic")
      · rw [if_pos h1]
        exact ⟨fun _ => rfl, fun hne => absurd rfl hne⟩
      · rw [if_neg h1]
        by_cases h2 : pyLower p0 == "gemini" && env.googleKey.isNone
        · rw [if_pos h2]
          exact ⟨fun _ => rfl, fun hne => absurd rfl hne⟩
        · rw [if_neg h2]
          by_cases h3 : pyLower p0 == "anthropic" && env.anthropicKey.isNone
          · rw [if_pos h3]
            exact ⟨fun _ => rfl, fun hne => absurd rfl hne⟩
          · rw [if_neg h3]
            by_cases h4 : pyLower p0 == st.lyricsProvider
            · rw [if_pos h4]
              exact ⟨fun h => by simp [ProviderResp.isErr] at h,
                fun hne => absurd rfl hne⟩
            · rw [if_neg h4]
              rcases hc : env.createGen (pyLower p0) with _ | g
              · exact ⟨fun _ => rfl, fun hne => absurd rfl hne⟩
              · exact ⟨fun h => by simp [ProviderResp.isErr] at h,
                  fun _ => ⟨p0, g, rfl, hc, rfl, rfl⟩⟩

/-- Closed witness for C10: an invalid provider name is rejected and the
state is unchanged. -/
theorem set_provider_atomic_witness :
    (set_provider
      { googleKey := some "g", anthropicKey := some "a", createGen := fun _ => some 7 }
      { lyricsProvider := "anthropic", lyricsGenerator := 0 }
      (some (some "badprov"))).2 =
      { lyricsProvider := "anthropic", lyricsGenerator := 0 } :=
  (set_provider_atomic
    { googleKey := some "g", anthropicKey := some "a", createGen := fun _ => some 7 }
    { lyricsProvider := "anthropic", lyricsGenerator := 0 }
    (some (some "badprov"))).1 rfl

end Yue
